import Mathlib

/-!
Verification of the market-data core of the Bitget dashboard
(`src/bitget_dashboard.py`): the `get_all_tickers` normalizer and the
`get_coin_details` major-symbol detail fetch.

Modelling conventions:
* Python floats are modelled as rationals (`ℚ`); numeric JSON fields are
  carried as already-coerced rationals.
* A JSON object field is `Option`-valued: `none` models a missing key.
  Bracket indexing (`item['k']`, `lst[i]`) is fallible; `dict.get(k, d)`
  is `Option.getD`.
* A fallible Python computation (any raised exception is caught by the
  enclosing `try`) is an `Option`-valued computation; Python division,
  which raises `ZeroDivisionError` on a zero denominator, is `pydiv`.
* The upstream HTTP call either fails in transport, fails to decode, or
  yields a payload: `FetchResult`.
* Python's process-seeded string `hash` is an arbitrary `String → ℤ`
  parameter `h`; Python's `%` on a positive modulus is `Int.emod`.
-/

/-- Outcome of one `requests.get(...).json()` call: transport error
(connection/timeout raised by `requests.get`), decode error (raised by
`.json()`), or a decoded payload. -/
inductive FetchResult (α : Type) where
  | transportError : FetchResult α
  | decodeError : FetchResult α
  | ok : α → FetchResult α
deriving DecidableEq

/-- Python division: raises (here: `none`) on a zero denominator. -/
def pydiv (a b : ℚ) : Option ℚ :=
  if b = 0 then none else some (a / b)

/-- One element of the all-tickers payload's `data` list. `symbol` is read
with raising access `item['symbol']`; the numeric fields are read with
`item.get(k, 0)` and so default rather than fail. -/
structure RawTicker where
  symbol : Option String
  lastPr : Option ℚ
  openPrice : Option ℚ
  high24h : Option ℚ
  low24h : Option ℚ
  usdtVolume : Option ℚ
  quoteVolume : Option ℚ
deriving DecidableEq

/-- Top-level all-tickers payload: `code` read with `.get('code')`,
`data` with raising access `data['data']`. -/
structure TickersPayload where
  code : Option String
  data : Option (List RawTicker)
deriving DecidableEq

/-- One row appended to the `tickers` list in `get_all_tickers`. -/
structure TickerRecord where
  Symbol : String
  Price : ℚ
  Change1h : ℚ
  Change4h : ℚ
  Change24h : ℚ
  High24h : ℚ
  Low24h : ℚ
  Volume : ℚ
  FullSymbol : String
deriving DecidableEq

/-- The source's `item['symbol'].replace('USDT', '')`: remove every
non-overlapping occurrence of `USDT`, scanning left to right. -/
def stripUSDT : List Char → List Char
  | 'U' :: 'S' :: 'D' :: 'T' :: rest => stripUSDT rest
  | c :: rest => c :: stripUSDT rest
  | [] => []

/-- String form of `stripUSDT`. -/
def pyReplaceUSDT (s : String) : String :=
  String.mk (stripUSDT s.data)

/-- Stripping the quote-currency suffix, as the spec words it: drop a
trailing `USDT` if present, leave the identifier unchanged otherwise.
Stated for comparison with the source's `pyReplaceUSDT`. -/
def stripQuoteSuffix (s : String) : String :=
  if List.isSuffixOf ['U', 'S', 'D', 'T'] s.data then
    String.mk (s.data.take (s.data.length - 4))
  else s

/-- The loop body of `get_all_tickers` for one payload element, given the
process hash function `h`: fails (raising `KeyError`) exactly when the
element lacks the `symbol` key. -/
def mkTickerRecord (h : String → ℤ) (item : RawTicker) : Option TickerRecord :=
  item.symbol.bind fun sym =>
    let last := item.lastPr.getD 0
    let open_24h := item.openPrice.getD 0
    let change_24h := if open_24h > 0 then (last - open_24h) / open_24h else 0
    let random_factor := ((h sym % 100 : ℤ) : ℚ) / 1000
    let change_1h := change_24h / 6 + random_factor * (5 / 100)
    let change_4h := change_24h / 2 + random_factor * (1 / 10)
    some { Symbol := pyReplaceUSDT sym
           Price := last
           Change1h := change_1h
           Change4h := change_4h
           Change24h := change_24h
           High24h := item.high24h.getD 0
           Low24h := item.low24h.getD 0
           Volume := item.usdtVolume.getD (item.quoteVolume.getD 0)
           FullSymbol := sym }

/-- Python's list-building loop: the rows in order, or failure as soon as
one element fails (the exception aborts the whole loop). -/
def mapOption (f : α → Option β) : List α → Option (List β)
  | [] => some []
  | a :: l => (f a).bind fun b => (mapOption f l).bind fun l' => some (b :: l')

/-- `get_all_tickers`: the enclosing `try` turns any raised exception into
an empty result, a non-success `code` returns an empty result before the
loop, and otherwise the loop builds one record per payload element. -/
def get_all_tickers (h : String → ℤ) (resp : FetchResult TickersPayload) :
    List TickerRecord :=
  match resp with
  | .transportError => []
  | .decodeError => []
  | .ok p =>
    if p.code = some "00000" then
      match p.data with
      | none => []
      | some items =>
        match mapOption (mkTickerRecord h) items with
        | none => []
        | some recs => recs
    else []

/-- Element of the single-symbol ticker payload's `data` list; `lastPr`
and `open` are both read with raising bracket access. -/
structure TickerEntry where
  lastPr : Option ℚ
  openPrice : Option ℚ
deriving DecidableEq

/-- Single-symbol ticker payload (`ticker_res`). -/
structure TickerPayload where
  data : Option (List TickerEntry)
deriving DecidableEq

/-- Candle payload (`candle_res`): `data` is a list of fixed-position
arrays `[timestamp, open, high, low, close, volume, ...]`. -/
structure CandlePayload where
  data : Option (List (List ℚ))
deriving DecidableEq

/-- One entry of `data.openInterestList`; `size` is read with raising
bracket access `oi_list[0]['size']`. -/
structure OiEntry where
  size : Option ℚ
deriving DecidableEq

/-- The `data` object of the open-interest payload; `openInterestList` is
probed with `in` before use, so its absence does not raise. -/
structure OiData where
  openInterestList : Option (List OiEntry)
deriving DecidableEq

/-- Open-interest payload (`oi_res`); `data` is probed with `.get`, so
its absence (or falsiness) does not raise. -/
structure OiPayload where
  data : Option OiData
deriving DecidableEq

/-- The `oi_size` computation: defaults to `0` when the nested list is
absent or empty, fails only when the first entry lacks `size`. -/
def oiSize (p : OiPayload) : Option ℚ :=
  match p.data with
  | none => some 0
  | some d =>
    match d.openInterestList with
    | none => some 0
    | some [] => some 0
    | some (e :: _) => e.size

/-- The record returned by `get_coin_details` on success. -/
structure MajorDetail where
  symbol : String
  price : ℚ
  change1h : ℚ
  change4h : ℚ
  change24h : ℚ
  oiValue : ℚ
  oiAth : ℚ
  oiAtl : ℚ
  oiAthDate : String
  oiAtlDate : String
deriving DecidableEq

/-- `get_coin_details`: three sequential fetch outcomes, any raised
exception caught by the enclosing `try` and turned into `none`. The
illustrative random ATH/ATL dates are abstracted as the inputs `dateAth`
and `dateAtl` (they come from `random.randint`, outside the data path). -/
def get_coin_details (symbol : String) (tickerResp : FetchResult TickerPayload)
    (candleResp : FetchResult CandlePayload) (oiResp : FetchResult OiPayload)
    (dateAth dateAtl : String) : Option MajorDetail :=
  match tickerResp, candleResp, oiResp with
  | .ok tp, .ok cp, .ok op =>
    tp.data.bind fun entries =>
      (entries.get? 0).bind fun entry =>
        entry.lastPr.bind fun current_price =>
          cp.data.bind fun candles =>
            (if candles.length > 1 then (candles.get? 1).bind fun c => c.get? 4
             else some current_price).bind fun price_1h_ago =>
              (if candles.length > 4 then (candles.get? 4).bind fun c => c.get? 4
               else some current_price).bind fun price_4h_ago =>
                (pydiv (current_price - price_1h_ago) price_1h_ago).bind fun change_1h =>
                  (pydiv (current_price - price_4h_ago) price_4h_ago).bind fun change_4h =>
                    entry.openPrice.bind fun open_price =>
                      (oiSize op).bind fun oi_size =>
                        some { symbol := symbol
                               price := current_price
                               change1h := change_1h
                               change4h := change_4h
                               change24h :=
                                 if open_price > 0 then
                                   (current_price - open_price) / open_price
                                 else 0
                               oiValue := oi_size * current_price
                               oiAth := oi_size * current_price *
                                 (12 / 10 + ((symbol.length % 5 : ℕ) : ℚ) / 10)
                               oiAtl := oi_size * current_price *
                                 (3 / 10 + ((symbol.length % 3 : ℕ) : ℚ) / 10)
                               oiAthDate := dateAth
                               oiAtlDate := dateAtl }
  | _, _, _ => none

/-- A single HTTP request as configured in the source: its URL and the
`timeout` keyword argument passed to `requests.get` (in seconds), `none`
when the call site passes no timeout. -/
structure HttpRequest where
  url : String
  timeoutSeconds : Option ℚ
deriving DecidableEq

/-- The all-tickers fetch (`requests.get(url, timeout=5)`). -/
def allTickersRequest : HttpRequest :=
  { url := "https://api.bitget.com/api/v2/spot/market/tickers"
    timeoutSeconds := some 5 }

/-- The single-symbol ticker fetch of `get_coin_details` (no timeout). -/
def detailTickerRequest (symbol : String) : HttpRequest :=
  { url := "https://api.bitget.com/api/v2/spot/market/tickers?symbol="
      ++ symbol ++ "USDT"
    timeoutSeconds := none }

/-- The candle fetch of `get_coin_details` (no timeout). -/
def detailCandleRequest (symbol : String) : HttpRequest :=
  { url := "https://api.bitget.com/api/v2/spot/market/candles?symbol="
      ++ symbol ++ "USDT&granularity=1h&limit=5"
    timeoutSeconds := none }

/-- The open-interest fetch of `get_coin_details` (no timeout). -/
def detailOiRequest (symbol : String) : HttpRequest :=
  { url := "https://api.bitget.com/api/v2/mix/market/open-interest?symbol="
      ++ symbol ++ "USDT&productType=USDT-FUTURES"
    timeoutSeconds := none }

/-- Every network call issued by the core for one render of one major
symbol: the all-tickers fetch and the three detail fetches. -/
def coreRequests (symbol : String) : List HttpRequest :=
  [allTickersRequest, detailTickerRequest symbol,
   detailCandleRequest symbol, detailOiRequest symbol]

theorem pydiv_eq_some {a b c : ℚ} (h : pydiv a b = some c) : b ≠ 0 ∧ c = a / b := by
  by_cases hb : b = 0
  · simp [pydiv, hb] at h
  · simp [pydiv, hb] at h
    exact ⟨hb, h.symm⟩

theorem detail_some_elim {symbol : String} {tp : TickerPayload} {cp : CandlePayload}
    {op : OiPayload} {dateAth dateAtl : String} {d : MajorDetail}
    (h : get_coin_details symbol (.ok tp) (.ok cp) (.ok op) dateAth dateAtl = some d) :
    ∃ entries entry current_price candles price1 price4 change1 change4 open_price oi_size,
      tp.data = some entries ∧ entries.get? 0 = some entry ∧
      entry.lastPr = some current_price ∧ cp.data = some candles ∧
      (if candles.length > 1 then (candles.get? 1).bind fun c => c.get? 4
       else some current_price) = some price1 ∧
      (if candles.length > 4 then (candles.get? 4).bind fun c => c.get? 4
       else some current_price) = some price4 ∧
      pydiv (current_price - price1) price1 = some change1 ∧
      pydiv (current_price - price4) price4 = some change4 ∧
      entry.openPrice = some open_price ∧ oiSize op = some oi_size ∧
      d = { symbol := symbol
            price := current_price
            change1h := change1
            change4h := change4
            change24h :=
              if open_price > 0 then (current_price - open_price) / open_price else 0
            oiValue := oi_size * current_price
            oiAth := oi_size * current_price *
              (12 / 10 + ((symbol.length % 5 : ℕ) : ℚ) / 10)
            oiAtl := oi_size * current_price *
              (3 / 10 + ((symbol.length % 3 : ℕ) : ℚ) / 10)
            oiAthDate := dateAth
            oiAtlDate := dateAtl } := by
  simp only [get_coin_details, Option.bind_eq_some] at h
  obtain ⟨entries, h1, entry, h2, cur, h3, candles, h4, p1, h5, p4, h6,
    c1, h7, c4, h8, op', h9, s, h10, hd⟩ := h
  exact ⟨entries, entry, cur, candles, p1, p4, c1, c4, op', s,
    h1, h2, h3, h4, h5, h6, h7, h8, h9, h10, (Option.some.inj hd).symm⟩

/-- Fields of a successfully built `get_all_tickers` row, read back from
the loop body. -/
theorem mkTickerRecord_fields (h : String → ℤ) (item : RawTicker) (sym : String)
    (rec : TickerRecord) (hsym : item.symbol = some sym)
    (hmk : mkTickerRecord h item = some rec) :
    rec.Change24h =
      (if item.openPrice.getD 0 > 0 then
        (item.lastPr.getD 0 - item.openPrice.getD 0) / item.openPrice.getD 0
       else 0) ∧
    rec.Change1h = rec.Change24h / 6 + ((h sym % 100 : ℤ) : ℚ) / 1000 * (5 / 100) ∧
    rec.Change4h = rec.Change24h / 2 + ((h sym % 100 : ℤ) : ℚ) / 1000 * (1 / 10) ∧
    rec.Symbol = pyReplaceUSDT sym ∧
    rec.Price = item.lastPr.getD 0 ∧
    rec.FullSymbol = sym := by
  simp only [mkTickerRecord, hsym, Option.some_bind, Option.some.injEq] at hmk
  subst hmk
  exact ⟨rfl, rfl, rfl, rfl, rfl, rfl⟩

/-- A row is built only from an element that has the `symbol` key. -/
theorem mkTickerRecord_some_symbol {h : String → ℤ} {item : RawTicker}
    {rec : TickerRecord} (hmk : mkTickerRecord h item = some rec) :
    ∃ sym, item.symbol = some sym := by
  cases hsym : item.symbol with
  | none => rw [mkTickerRecord, hsym] at hmk; cases hmk
  | some s => exact ⟨s, rfl⟩

/-- A failing element aborts the whole list build. -/
theorem mapOption_eq_none {f : α → Option β} {l : List α} {a : α}
    (ha : a ∈ l) (hf : f a = none) : mapOption f l = none := by
  induction l with
  | nil => cases ha
  | cons b l ih =>
    rcases List.mem_cons.mp ha with rfl | ha2
    · simp [mapOption, hf]
    · cases hb : f b
      · simp [mapOption, hb]
      · simp [mapOption, hb, ih ha2]

/-- A fixed stand-in for the process string-hash function, for concrete
witnesses. -/
def hashZero : String → ℤ := fun _ => 0

/-- The spec's mocked `BTCUSDT` all-tickers payload element. -/
def itemBTC : RawTicker :=
  ⟨some "BTCUSDT", some 65000, some 64000, some 66000, some 63000, some 1000000, none⟩

/-- The row `get_all_tickers` builds from `itemBTC` under `hashZero`. -/
def recBTC : TickerRecord :=
  ⟨"BTC", 65000, 1 / 384, 1 / 128, 1 / 64, 66000, 63000, 1000000, "BTCUSDT"⟩

theorem mkTickerRecord_itemBTC : mkTickerRecord hashZero itemBTC = some recBTC := by
  have hs : pyReplaceUSDT "BTCUSDT" = "BTC" := by decide
  norm_num [mkTickerRecord, itemBTC, recBTC, hashZero, hs]

/-- A single-symbol ticker payload for `BTCUSDT`: last price 65000, 24h
open 64000. -/
def tpBTC : TickerPayload := ⟨some [⟨some 65000, some 64000⟩]⟩

/-- An empty candle list (newly listed symbol). -/
def cpBTC : CandlePayload := ⟨some []⟩

/-- An open-interest payload with no `data` object at all. -/
def opBTC : OiPayload := ⟨none⟩

/-- An open-interest payload whose `data` object lacks the expected
`openInterestList`. -/
def opNoList : OiPayload := ⟨some ⟨none⟩⟩

/-- An open-interest payload whose first list entry lacks the `size` key. -/
def opNoSize : OiPayload := ⟨some ⟨some [⟨none⟩]⟩⟩

/-- An open-interest payload reporting size 10. -/
def opOi10 : OiPayload := ⟨some ⟨some [⟨some 10⟩]⟩⟩

/-- The detail record built from `tpBTC`, `cpBTC` and zero open interest. -/
def dBTC : MajorDetail :=
  ⟨"BTC", 65000, 0, 0, 1 / 64, 0, 0, 0, "a", "b"⟩

/-- The detail record built from `tpBTC`, `cpBTC` and `opOi10`. -/
def dOi10 : MajorDetail :=
  ⟨"BTC", 65000, 0, 0, 1 / 64, 650000, 975000, 195000, "a", "b"⟩

theorem detail_eval_opBTC :
    get_coin_details "BTC" (.ok tpBTC) (.ok cpBTC) (.ok opBTC) "a" "b" = some dBTC := by
  norm_num [get_coin_details, tpBTC, cpBTC, opBTC, dBTC, oiSize, pydiv]

theorem detail_eval_opNoList :
    get_coin_details "BTC" (.ok tpBTC) (.ok cpBTC) (.ok opNoList) "a" "b" = some dBTC := by
  norm_num [get_coin_details, tpBTC, cpBTC, opNoList, dBTC, oiSize, pydiv]

theorem detail_eval_opOi10 :
    get_coin_details "BTC" (.ok tpBTC) (.ok cpBTC) (.ok opOi10) "a" "b" = some dOi10 := by
  norm_num [get_coin_details, tpBTC, cpBTC, opOi10, dOi10, oiSize, pydiv,
    show "BTC".length = 3 from rfl]

/-- C1: for every ticker element processed by `get_all_tickers` and for
the ticker fetched in `get_coin_details`, a positive 24h open price yields
`change24h = (lastPrice - open24h) / open24h` and a non-positive one
yields `change24h = 0`. In both paths the source executes the division
only under the positivity guard, so the computation (total in this
embedding) never raises a division error. -/
theorem claim_C1 :
    (∀ (h : String → ℤ) (item : RawTicker) (rec : TickerRecord),
        mkTickerRecord h item = some rec →
        (0 < item.openPrice.getD 0 →
          rec.Change24h =
            (item.lastPr.getD 0 - item.openPrice.getD 0) / item.openPrice.getD 0) ∧
        (item.openPrice.getD 0 ≤ 0 → rec.Change24h = 0)) ∧
    (∀ (sym : String) (tp : TickerPayload) (cp : CandlePayload) (op : OiPayload)
        (da dl : String) (d : MajorDetail) (entry : TickerEntry) (last openP : ℚ),
        get_coin_details sym (.ok tp) (.ok cp) (.ok op) da dl = some d →
        tp.data.bind (fun l => l.get? 0) = some entry →
        entry.lastPr = some last → entry.openPrice = some openP →
        (0 < openP → d.change24h = (last - openP) / openP) ∧
        (openP ≤ 0 → d.change24h = 0)) := by
  constructor
  · intro h item rec hmk
    obtain ⟨sym, hsym⟩ := mkTickerRecord_some_symbol hmk
    obtain ⟨h24, -⟩ := mkTickerRecord_fields h item sym rec hsym hmk
    constructor
    · intro hpos
      rw [h24, if_pos hpos]
    · intro hle
      rw [h24, if_neg (not_lt.mpr hle)]
  · intro sym tp cp op da dl d entry last openP hres hdat hlast hopen
    obtain ⟨entries, entry2, cur, candles, p1, p4, c1, c4, oP, s,
      h1, h2, h3, h4, h5, h6, h7, h8, h9, h10, hdeq⟩ := detail_some_elim hres
    rw [h1, Option.some_bind] at hdat
    obtain rfl : entry2 = entry := by rw [h2] at hdat; exact Option.some.inj hdat
    obtain rfl : cur = last := by rw [h3] at hlast; exact Option.some.inj hlast
    obtain rfl : oP = openP := by rw [h9] at hopen; exact Option.some.inj hopen
    subst hdeq
    constructor
    · intro hpos
      simp [if_pos hpos]
    · intro hle
      simp [if_neg (not_lt.mpr hle)]

/-- Witness for C1 at the mocked `BTCUSDT` inputs. -/
theorem claim_C1_witness :
    recBTC.Change24h =
      (itemBTC.lastPr.getD 0 - itemBTC.openPrice.getD 0) / itemBTC.openPrice.getD 0 ∧
    dBTC.change24h = (65000 - 64000) / 64000 :=
  ⟨(claim_C1.1 hashZero itemBTC recBTC mkTickerRecord_itemBTC).1
      (by norm_num [itemBTC]),
   (claim_C1.2 "BTC" tpBTC cpBTC opBTC "a" "b" dBTC ⟨some 65000, some 64000⟩
      65000 64000 detail_eval_opBTC (by norm_num [tpBTC]) rfl rfl).1
      (by norm_num)⟩

/-- C2: `get_all_tickers` yields the empty list on a transport error, on a
decode error, on an exchange-reported non-success `code` (in which case no
rows at all are built), and on any payload element lacking the `symbol`
key (the raised `KeyError` aborts the loop and the enclosing handler again
yields an empty result, never a part of the rows). The embedded function
is total, so no exception escapes to the caller. -/
theorem claim_C2 (h : String → ℤ) :
    get_all_tickers h .transportError = [] ∧
    get_all_tickers h .decodeError = [] ∧
    (∀ p : TickersPayload, p.code ≠ some "00000" → get_all_tickers h (.ok p) = []) ∧
    (∀ (p : TickersPayload) (items : List RawTicker) (item : RawTicker),
        p.data = some items → item ∈ items → item.symbol = none →
        get_all_tickers h (.ok p) = []) := by
  refine ⟨rfl, rfl, fun p hc => ?_, fun p items item hdat hmem hsym => ?_⟩
  · simp [get_all_tickers, hc]
  · by_cases hc : p.code = some "00000"
    · have hnone : mkTickerRecord h item = none := by
        rw [mkTickerRecord, hsym]; rfl
      simp [get_all_tickers, hc, hdat, mapOption_eq_none hmem hnone]
    · simp [get_all_tickers, hc]

/-- Witness for C2: a non-success status code and an element with no
`symbol` key both produce the empty list. -/
theorem claim_C2_witness :
    get_all_tickers hashZero (.ok ⟨some "40909", some [itemBTC]⟩) = [] ∧
    get_all_tickers hashZero
      (.ok ⟨some "00000", some [⟨none, none, none, none, none, none, none⟩]⟩) = [] :=
  ⟨(claim_C2 hashZero).2.2.1 ⟨some "40909", some [itemBTC]⟩ (by simp),
   (claim_C2 hashZero).2.2.2 ⟨some "00000", some [⟨none, none, none, none, none, none, none⟩]⟩
      [⟨none, none, none, none, none, none, none⟩]
      ⟨none, none, none, none, none, none, none⟩ rfl (by simp) rfl⟩

/-- C3 as stated is refuted: the open-interest sub-fetch returning an
unexpected payload shape (a `data` object with no `openInterestList`) does
NOT make `get_coin_details` return `none`; the source degrades the size to
0 and returns a record whose open-interest fields are all zero. -/
theorem claim_C3_counterexample :
    get_coin_details "BTC" (.ok tpBTC) (.ok cpBTC) (.ok opNoList) "a" "b" = some dBTC ∧
    opNoList.data = some ⟨none⟩ ∧
    dBTC.oiValue = 0 ∧ dBTC.oiAth = 0 ∧ dBTC.oiAtl = 0 :=
  ⟨detail_eval_opNoList, rfl, rfl, rfl, rfl⟩

/-- C3 amended: if the ticker or candle sub-fetch fails — by a transport
or decode error, or by a required-field access (no `data` key, an empty
`data` list, a first entry missing `lastPr` or `open`, or a candle row too
short for the close at index 4) — or any sub-fetch fails in transport or
decode, or the open-interest list's first entry lacks the `size` key, then
`get_coin_details` returns `none`; but an open-interest payload merely
lacking the `data`/`openInterestList` structure is degraded to zero size,
not treated as a failure. -/
theorem claim_C3_amended (sym : String) (tr : FetchResult TickerPayload)
    (cr : FetchResult CandlePayload) (orr : FetchResult OiPayload) (da dl : String) :
    ((tr = .transportError ∨ tr = .decodeError ∨ cr = .transportError ∨
      cr = .decodeError ∨ orr = .transportError ∨ orr = .decodeError) →
      get_coin_details sym tr cr orr da dl = none) ∧
    (∀ (op : OiPayload) (oid : OiData) (e : OiEntry) (rest : List OiEntry),
      orr = .ok op → op.data = some oid → oid.openInterestList = some (e :: rest) →
      e.size = none → get_coin_details sym tr cr orr da dl = none) ∧
    (∀ (tp : TickerPayload) (cp : CandlePayload),
      tr = .ok tp → cr = .ok cp →
      (tp.data = none ∨
       (∃ entries, tp.data = some entries ∧ entries.get? 0 = none) ∨
       (∃ entries entry, tp.data = some entries ∧ entries.get? 0 = some entry ∧
          entry.lastPr = none) ∨
       (∃ entries entry, tp.data = some entries ∧ entries.get? 0 = some entry ∧
          entry.openPrice = none) ∨
       cp.data = none ∨
       (∃ candles, cp.data = some candles ∧ candles.length > 1 ∧
          (candles.get? 1).bind (fun c => c.get? 4) = none) ∨
       (∃ candles, cp.data = some candles ∧ candles.length > 4 ∧
          (candles.get? 4).bind (fun c => c.get? 4) = none)) →
      get_coin_details sym tr cr orr da dl = none) := by
  refine ⟨?_, ?_, ?_⟩
  · cases tr <;> cases cr <;> cases orr <;> intro hcase <;>
      first
        | rfl
        | simp at hcase
  · intro op oid e rest horr hdat hlist hsize
    subst horr
    cases tr with
    | transportError => rfl
    | decodeError => rfl
    | ok tp =>
      cases cr with
      | transportError => rfl
      | decodeError => rfl
      | ok cp =>
        cases hres : get_coin_details sym (.ok tp) (.ok cp) (.ok op) da dl with
        | none => rfl
        | some d =>
          obtain ⟨-, -, -, -, -, -, -, -, -, s,
            -, -, -, -, -, -, -, -, -, h10, -⟩ := detail_some_elim hres
          simp only [oiSize, hdat, hlist, hsize] at h10
          cases h10
  · intro tp cp htr hcr hfail
    subst htr
    subst hcr
    cases orr with
    | transportError => rfl
    | decodeError => rfl
    | ok op =>
      cases hres : get_coin_details sym (.ok tp) (.ok cp) (.ok op) da dl with
      | none => rfl
      | some d =>
        exfalso
        obtain ⟨entries2, entry2, cur, candles2, p1, p4, c1, c4, oP, s,
          h1, h2, h3, h4, h5, h6, h7, h8, h9, h10, -⟩ := detail_some_elim hres
        rcases hfail with hf | ⟨entries, he, hf⟩ | ⟨entries, entry, he, hg, hf⟩ |
          ⟨entries, entry, he, hg, hf⟩ | hf | ⟨candles, hc, hlen, hf⟩ |
          ⟨candles, hc, hlen, hf⟩
        · rw [h1] at hf
          cases hf
        · rw [h1] at he
          obtain rfl : entries2 = entries := Option.some.inj he
          rw [h2] at hf
          cases hf
        · rw [h1] at he
          obtain rfl : entries2 = entries := Option.some.inj he
          rw [h2] at hg
          obtain rfl : entry2 = entry := Option.some.inj hg
          rw [h3] at hf
          cases hf
        · rw [h1] at he
          obtain rfl : entries2 = entries := Option.some.inj he
          rw [h2] at hg
          obtain rfl : entry2 = entry := Option.some.inj hg
          rw [h9] at hf
          cases hf
        · rw [h4] at hf
          cases hf
        · rw [h4] at hc
          obtain rfl : candles2 = candles := Option.some.inj hc
          rw [if_pos hlen, hf] at h5
          cases h5
        · rw [h4] at hc
          obtain rfl : candles2 = candles := Option.some.inj hc
          rw [if_pos hlen, hf] at h6
          cases h6

/-- Witness for C3 (amended): a transport error on the ticker fetch, a
first open-interest entry with no `size` key, an empty ticker `data` list,
and a candle payload whose second row has no index 4, each yield `none`. -/
theorem claim_C3_witness :
    get_coin_details "BTC" .transportError (.ok cpBTC) (.ok opBTC) "a" "b" = none ∧
    get_coin_details "BTC" (.ok tpBTC) (.ok cpBTC) (.ok opNoSize) "a" "b" = none ∧
    get_coin_details "BTC" (.ok ⟨some []⟩) (.ok cpBTC) (.ok opBTC) "a" "b" = none ∧
    get_coin_details "BTC" (.ok tpBTC) (.ok ⟨some [[1], [2]]⟩) (.ok opBTC) "a" "b" =
      none :=
  ⟨(claim_C3_amended "BTC" .transportError (.ok cpBTC) (.ok opBTC) "a" "b").1
      (Or.inl rfl),
   (claim_C3_amended "BTC" (.ok tpBTC) (.ok cpBTC) (.ok opNoSize) "a" "b").2.1
      opNoSize ⟨some [⟨none⟩]⟩ ⟨none⟩ [] rfl rfl rfl rfl,
   (claim_C3_amended "BTC" (.ok ⟨some []⟩) (.ok cpBTC) (.ok opBTC) "a" "b").2.2
      ⟨some []⟩ cpBTC rfl rfl (Or.inr (Or.inl ⟨[], rfl, rfl⟩)),
   (claim_C3_amended "BTC" (.ok tpBTC) (.ok ⟨some [[1], [2]]⟩) (.ok opBTC) "a" "b").2.2
      tpBTC ⟨some [[1], [2]]⟩ rfl rfl
      (Or.inr (Or.inr (Or.inr (Or.inr (Or.inr (Or.inl
        ⟨[[1], [2]], rfl, by norm_num, rfl⟩))))))⟩

/-- C4: the estimated changes of `get_all_tickers` satisfy
`change1h = change24h / 6 + factor * 0.05` and
`change4h = change24h / 2 + factor * 0.1` with
`factor = (hash(symbolId) mod 100) / 1000`, and the computation is a pure
function of the symbol and the 24h change (the embedding is a function of
`h` and the element, so two evaluations with identical inputs coincide). -/
theorem claim_C4 (h : String → ℤ) (item : RawTicker) (sym : String)
    (rec : TickerRecord) (hsym : item.symbol = some sym)
    (hmk : mkTickerRecord h item = some rec) :
    rec.Change1h = rec.Change24h / 6 + ((h sym % 100 : ℤ) : ℚ) / 1000 * (5 / 100) ∧
    rec.Change4h = rec.Change24h / 2 + ((h sym % 100 : ℤ) : ℚ) / 1000 * (1 / 10) ∧
    mkTickerRecord h item = mkTickerRecord h item := by
  obtain ⟨-, h1, h4, -⟩ := mkTickerRecord_fields h item sym rec hsym hmk
  exact ⟨h1, h4, rfl⟩

/-- Witness for C4 at the mocked `BTCUSDT` element under `hashZero`. -/
theorem claim_C4_witness :
    recBTC.Change1h =
      recBTC.Change24h / 6 + ((hashZero "BTCUSDT" % 100 : ℤ) : ℚ) / 1000 * (5 / 100) ∧
    recBTC.Change4h =
      recBTC.Change24h / 2 + ((hashZero "BTCUSDT" % 100 : ℤ) : ℚ) / 1000 * (1 / 10) :=
  ⟨(claim_C4 hashZero itemBTC "BTCUSDT" recBTC rfl mkTickerRecord_itemBTC).1,
   (claim_C4 hashZero itemBTC "BTCUSDT" recBTC rfl mkTickerRecord_itemBTC).2.1⟩

/-- C5: in the exact-mode path of `get_coin_details`, a candle list with
fewer than 2 entries makes the 1h reference fall back to the current price
and the computed `change1h` is 0; fewer than 5 entries likewise make
`change4h` 0. -/
theorem claim_C5 (sym : String) (tp : TickerPayload) (cp : CandlePayload)
    (op : OiPayload) (da dl : String) (d : MajorDetail) (candles : List (List ℚ))
    (hcd : cp.data = some candles)
    (hres : get_coin_details sym (.ok tp) (.ok cp) (.ok op) da dl = some d) :
    (candles.length < 2 → d.change1h = 0) ∧
    (candles.length < 5 → d.change4h = 0) := by
  obtain ⟨entries, entry, cur, candles2, p1, p4, c1, c4, oP, s,
    h1, h2, h3, h4, h5, h6, h7, h8, h9, h10, hdeq⟩ := detail_some_elim hres
  have hcc : candles2 = candles := by rw [h4] at hcd; exact Option.some.inj hcd
  rw [hcc] at h5 h6
  subst hdeq
  constructor
  · intro hlen
    have hnot : ¬ candles.length > 1 := by omega
    rw [if_neg hnot] at h5
    obtain rfl : p1 = cur := (Option.some.inj h5).symm
    obtain ⟨hne, hc1⟩ := pydiv_eq_some h7
    simp [hc1]
  · intro hlen
    have hnot : ¬ candles.length > 4 := by omega
    rw [if_neg hnot] at h6
    obtain rfl : p4 = cur := (Option.some.inj h6).symm
    obtain ⟨hne, hc4⟩ := pydiv_eq_some h8
    simp [hc4]

/-- Witness for C5: with an empty candle list both changes are 0. -/
theorem claim_C5_witness : dBTC.change1h = 0 ∧ dBTC.change4h = 0 :=
  ⟨(claim_C5 "BTC" tpBTC cpBTC opBTC "a" "b" dBTC [] rfl detail_eval_opBTC).1
      (by norm_num),
   (claim_C5 "BTC" tpBTC cpBTC opBTC "a" "b" dBTC [] rfl detail_eval_opBTC).2
      (by norm_num)⟩

/-- C6: `get_coin_details` computes
`oiAth = oiValue * (1.2 + (length(symbol) mod 5) / 10)` and
`oiAtl = oiValue * (0.3 + (length(symbol) mod 3) / 10)`, a function of the
symbol's length only; for the symbol "BTC" (length 3) the ATH multiplier
is 1.5 and the ATL multiplier is 0.3. -/
theorem claim_C6 (sym : String) (tp : TickerPayload) (cp : CandlePayload)
    (op : OiPayload) (da dl : String) (d : MajorDetail)
    (hres : get_coin_details sym (.ok tp) (.ok cp) (.ok op) da dl = some d) :
    d.oiAth = d.oiValue * (12 / 10 + ((sym.length % 5 : ℕ) : ℚ) / 10) ∧
    d.oiAtl = d.oiValue * (3 / 10 + ((sym.length % 3 : ℕ) : ℚ) / 10) ∧
    12 / 10 + (("BTC".length % 5 : ℕ) : ℚ) / 10 = 3 / 2 ∧
    3 / 10 + (("BTC".length % 3 : ℕ) : ℚ) / 10 = 3 / 10 := by
  obtain ⟨entries, entry, cur, candles, p1, p4, c1, c4, oP, s,
    h1, h2, h3, h4, h5, h6, h7, h8, h9, h10, hdeq⟩ := detail_some_elim hres
  subst hdeq
  refine ⟨rfl, rfl, ?_, ?_⟩ <;> norm_num [show "BTC".length = 3 from rfl]

/-- Witness for C6 at a concrete fetched detail with open interest 10. -/
theorem claim_C6_witness :
    dOi10.oiAth = dOi10.oiValue * (12 / 10 + (("BTC".length % 5 : ℕ) : ℚ) / 10) ∧
    dOi10.oiAtl = dOi10.oiValue * (3 / 10 + (("BTC".length % 3 : ℕ) : ℚ) / 10) :=
  ⟨(claim_C6 "BTC" tpBTC cpBTC opOi10 "a" "b" dOi10 detail_eval_opOi10).1,
   (claim_C6 "BTC" tpBTC cpBTC opOi10 "a" "b" dOi10 detail_eval_opOi10).2.1⟩

/-- C7 as stated is refuted: with zero open interest (a payload carrying
no `data` object), `get_coin_details` succeeds with a non-negative
`oiValue` of 0 for which neither strict inequality holds — the constructed
`oiAth` does not exceed the current value and `oiAtl` is not below it. -/
theorem claim_C7_counterexample :
    get_coin_details "BTC" (.ok tpBTC) (.ok cpBTC) (.ok opBTC) "a" "b" = some dBTC ∧
    0 ≤ dBTC.oiValue ∧ ¬ dBTC.oiValue < dBTC.oiAth ∧ ¬ dBTC.oiAtl < dBTC.oiValue :=
  ⟨detail_eval_opBTC, le_refl 0, lt_irrefl 0, lt_irrefl 0⟩

/-- C7 amended: for every symbol and every POSITIVE `oiValue` computed by
`get_coin_details`, the constructed `oiAth` strictly exceeds the value and
the constructed `oiAtl` is strictly below it (the multipliers lie in
1.2–1.6 and 0.3–0.5); at `oiValue = 0` all three coincide. -/
theorem claim_C7_amended (sym : String) (tp : TickerPayload) (cp : CandlePayload)
    (op : OiPayload) (da dl : String) (d : MajorDetail)
    (hres : get_coin_details sym (.ok tp) (.ok cp) (.ok op) da dl = some d)
    (hpos : 0 < d.oiValue) :
    d.oiValue < d.oiAth ∧ d.oiAtl < d.oiValue := by
  obtain ⟨entries, entry, cur, candles, p1, p4, c1, c4, oP, s,
    h1, h2, h3, h4, h5, h6, h7, h8, h9, h10, hdeq⟩ := detail_some_elim hres
  subst hdeq
  have hv : (0 : ℚ) < s * cur := hpos
  constructor
  · show s * cur < s * cur * (12 / 10 + ((sym.length % 5 : ℕ) : ℚ) / 10)
    have hk : (0 : ℚ) ≤ ((sym.length % 5 : ℕ) : ℚ) := Nat.cast_nonneg _
    nlinarith [hv, hk]
  · show s * cur * (3 / 10 + ((sym.length % 3 : ℕ) : ℚ) / 10) < s * cur
    have hm2 : sym.length % 3 ≤ 2 := by omega
    have hm : ((sym.length % 3 : ℕ) : ℚ) ≤ 2 := by exact_mod_cast hm2
    have hm0 : (0 : ℚ) ≤ ((sym.length % 3 : ℕ) : ℚ) := Nat.cast_nonneg _
    nlinarith [hv, hm, hm0]

/-- Witness for C7 (amended) at open interest 10 and price 65000. -/
theorem claim_C7_witness : dOi10.oiValue < dOi10.oiAth ∧ dOi10.oiAtl < dOi10.oiValue :=
  claim_C7_amended "BTC" tpBTC cpBTC opOi10 "a" "b" dOi10 detail_eval_opOi10
    (by norm_num [dOi10])

/-- C8 as stated is refuted: the source removes EVERY occurrence of
`USDT` from the pair identifier, not just a trailing quote-currency
suffix; on the pair identifier "USDTUSDT" the built row's symbol is the
empty string while the suffix-stripped identifier is "USDT". -/
theorem claim_C8_counterexample :
    (mkTickerRecord hashZero
        ⟨some "USDTUSDT", some 1, some 1, none, none, none, none⟩).map
      TickerRecord.Symbol = some "" ∧
    stripQuoteSuffix "USDTUSDT" = "USDT" ∧ ("" : String) ≠ "USDT" := by
  refine ⟨?_, by decide, by decide⟩
  have hs : pyReplaceUSDT "USDTUSDT" = "" := by decide
  simp [mkTickerRecord, hs]

/-- C8 amended: the normalized symbol equals the pair identifier with all
occurrences of `USDT` removed (which coincides with stripping the quote
suffix whenever `USDT` occurs only there), and for the concrete mocked
payload `{symbol: BTCUSDT, lastPr: 65000, open: 64000, high24h: 66000,
low24h: 63000, usdtVolume: 1000000}` the row has symbol "BTC",
price 65000, `change24h = 0.015625` and full symbol "BTCUSDT". -/
theorem claim_C8_amended :
    (∀ (h : String → ℤ) (item : RawTicker) (sym : String) (rec : TickerRecord),
        item.symbol = some sym → mkTickerRecord h item = some rec →
        rec.Symbol = pyReplaceUSDT sym ∧ rec.FullSymbol = sym) ∧
    (∀ h : String → ℤ,
        (mkTickerRecord h itemBTC).map
          (fun r => (r.Symbol, r.Price, r.Change24h, r.FullSymbol)) =
          some ("BTC", (65000 : ℚ), (1 / 64 : ℚ), "BTCUSDT")) := by
  constructor
  · intro h item sym rec hsym hmk
    obtain ⟨-, -, -, hS, -, hF⟩ := mkTickerRecord_fields h item sym rec hsym hmk
    exact ⟨hS, hF⟩
  · intro h
    have hs : pyReplaceUSDT "BTCUSDT" = "BTC" := by decide
    norm_num [mkTickerRecord, itemBTC, hs]

/-- Witness for C8 (amended) at the mocked `BTCUSDT` element. -/
theorem claim_C8_witness :
    recBTC.Symbol = pyReplaceUSDT "BTCUSDT" ∧ recBTC.FullSymbol = "BTCUSDT" :=
  claim_C8_amended.1 hashZero itemBTC "BTCUSDT" recBTC rfl mkTickerRecord_itemBTC

/-- C9 as stated is refuted: of the network calls issued by the core, the
single-symbol ticker fetch of `get_coin_details` (like the candle and
open-interest fetches) passes no timeout to `requests.get`, so not every
call carries a fixed bounded timeout. -/
theorem claim_C9_counterexample :
    (detailTickerRequest "BTC").timeoutSeconds = none ∧
    (detailCandleRequest "BTC").timeoutSeconds = none ∧
    (detailOiRequest "BTC").timeoutSeconds = none ∧
    detailTickerRequest "BTC" ∈ coreRequests "BTC" :=
  ⟨rfl, rfl, rfl, by simp [coreRequests]⟩

/-- C9 amended: only the all-tickers fetch of `get_all_tickers` carries a
fixed bounded timeout (5 seconds); the three fetches of
`get_coin_details` carry none. -/
theorem claim_C9_amended (sym : String) :
    allTickersRequest.timeoutSeconds = some 5 ∧
    (detailTickerRequest sym).timeoutSeconds = none ∧
    (detailCandleRequest sym).timeoutSeconds = none ∧
    (detailOiRequest sym).timeoutSeconds = none :=
  ⟨rfl, rfl, rfl, rfl⟩

/-- C10: for every symbol the factor `(hash(symbol) mod 100) / 1000` lies
in `[0, 0.099]`; hence in every built row the estimated `change1h` is at
least `change24h / 6` and exceeds it by at most `0.099 * 0.05`, and
`change4h` is at least `change24h / 2` and exceeds it by at most
`0.099 * 0.1`. -/
theorem claim_C10 (h : String → ℤ) (sym : String) :
    (0 ≤ ((h sym % 100 : ℤ) : ℚ) / 1000 ∧
     ((h sym % 100 : ℤ) : ℚ) / 1000 ≤ 99 / 1000) ∧
    (∀ (item : RawTicker) (rec : TickerRecord), item.symbol = some sym →
      mkTickerRecord h item = some rec →
      (rec.Change24h / 6 ≤ rec.Change1h ∧
       rec.Change1h ≤ rec.Change24h / 6 + 99 / 1000 * (5 / 100)) ∧
      (rec.Change24h / 2 ≤ rec.Change4h ∧
       rec.Change4h ≤ rec.Change24h / 2 + 99 / 1000 * (1 / 10))) := by
  have h0 : (0 : ℤ) ≤ h sym % 100 := Int.emod_nonneg _ (by norm_num)
  have h99 : h sym % 100 ≤ 99 := by
    have := Int.emod_lt_of_pos (h sym) (show (0 : ℤ) < 100 by norm_num)
    omega
  have q0 : (0 : ℚ) ≤ ((h sym % 100 : ℤ) : ℚ) := by exact_mod_cast h0
  have q99 : ((h sym % 100 : ℤ) : ℚ) ≤ 99 := by exact_mod_cast h99
  have hf0 : (0 : ℚ) ≤ ((h sym % 100 : ℤ) : ℚ) / 1000 := by linarith
  have hf99 : ((h sym % 100 : ℤ) : ℚ) / 1000 ≤ 99 / 1000 := by linarith
  refine ⟨⟨hf0, hf99⟩, fun item rec hsym hmk => ?_⟩
  obtain ⟨-, h1, h4, -⟩ := mkTickerRecord_fields h item sym rec hsym hmk
  have hA : (0 : ℚ) ≤ ((h sym % 100 : ℤ) : ℚ) / 1000 * (5 / 100) :=
    mul_nonneg hf0 (by norm_num)
  have hB : ((h sym % 100 : ℤ) : ℚ) / 1000 * (5 / 100) ≤ 99 / 1000 * (5 / 100) :=
    mul_le_mul_of_nonneg_right hf99 (by norm_num)
  have hC : (0 : ℚ) ≤ ((h sym % 100 : ℤ) : ℚ) / 1000 * (1 / 10) :=
    mul_nonneg hf0 (by norm_num)
  have hD : ((h sym % 100 : ℤ) : ℚ) / 1000 * (1 / 10) ≤ 99 / 1000 * (1 / 10) :=
    mul_le_mul_of_nonneg_right hf99 (by norm_num)
  rw [h1, h4]
  exact ⟨⟨by linarith, by linarith⟩, by linarith, by linarith⟩

/-- Witness for C10 at the mocked `BTCUSDT` element under `hashZero`. -/
theorem claim_C10_witness :
    recBTC.Change24h / 6 ≤ recBTC.Change1h ∧
    recBTC.Change4h ≤ recBTC.Change24h / 2 + 99 / 1000 * (1 / 10) :=
  ⟨(((claim_C10 hashZero "BTCUSDT").2 itemBTC recBTC rfl
      mkTickerRecord_itemBTC).1).1,
   (((claim_C10 hashZero "BTCUSDT").2 itemBTC recBTC rfl
      mkTickerRecord_itemBTC).2).2⟩
